import Mathlib

/-!
Verification of the image-to-listing extraction pipeline of the secondhand-book
marketplace backend, shallowly embedded in Lean 4.

The repository ships the mini-program frontend (`frontend/pages/library/library.vue`,
`frontend/utils/request.js`, `frontend/utils/config.js`); the FastAPI backend
(`backend/app`: normalizer, catalog repository, extraction adapter, orchestrator)
is referenced by the README and deployment guide but its files are not in the
snapshot, so those components are modelled from the specification, while the
identity resolver and the client analyze flow are embedded from the shipped
frontend source.
-/

/-- Lower-case a string character by character (case-insensitive comparison
helper; on the CJK taxonomy labels this is the identity). -/
def lowerStr (s : String) : String :=
  ⟨s.data.map Char.toLower⟩

/-- Strip leading and trailing whitespace from a character list. -/
def trimChars (l : List Char) : List Char :=
  ((l.dropWhile Char.isWhitespace).reverse.dropWhile Char.isWhitespace).reverse

/-- The fixed category taxonomy, as listed in
`frontend/pages/library/library.vue` (`categories`, edit page data), with the
reserved fallback `其他` ("other") as its last member. -/
def taxonomy : List String :=
  ["高等数学", "线性代数", "概率统计", "大学物理", "电子电路",
   "程序设计", "数据结构", "计算机网络", "其他"]

/-- Modelled from the spec: Candidate Normalizer rule 2 (backend
`app/services` is absent from the snapshot).  Maps a free-text category to the
taxonomy by exact case-insensitive match; on no match assigns `其他`. -/
def normalizeCategory (s : String) : String :=
  (taxonomy.find? (fun c => lowerStr c == lowerStr s)).getD "其他"

/-- Value of a list of decimal digit characters. -/
def digitsVal (l : List Char) : Nat :=
  l.foldl (fun acc c => acc * 10 + (c.toNat - '0'.toNat)) 0

/-- All characters are decimal digits. -/
def allDigits (l : List Char) : Bool :=
  l.all Char.isDigit

/-- A non-negative decimal number `num / 10 ^ exp`, e.g. `⟨155, 1⟩` is 15.5.
This keeps monetary values kernel-computable. -/
structure Dec where
  num : Nat
  exp : Nat
deriving DecidableEq, Repr

/-- The rational value of a decimal number. -/
def Dec.toRat (d : Dec) : Rat :=
  (d.num : Rat) / (10 : Rat) ^ d.exp

/-- Modelled from the spec: parse an unsigned decimal numeral
`digits [ '.' digits ]`. -/
def parseUnsignedDec (l : List Char) : Option Dec :=
  let intPart := l.takeWhile (fun c => c ≠ '.')
  let rest := l.dropWhile (fun c => c ≠ '.')
  match rest with
  | [] =>
    if intPart ≠ [] && allDigits intPart then some ⟨digitsVal intPart, 0⟩
    else none
  | c :: frac =>
    if c = '.' && intPart ≠ [] && allDigits intPart && allDigits frac then
      some ⟨digitsVal (intPart ++ frac), frac.length⟩
    else none

/-- Modelled from the spec: Candidate Normalizer rule 3 (backend
`app/services` is absent from the snapshot).  Price coercion: numeric-looking
strings become a non-negative numeric value; anything non-numeric or negative
(a leading `-`) becomes absent.  The empty string stands for an absent price
field. -/
def coercePrice (s : String) : Option Dec :=
  match trimChars s.data with
  | '-' :: _ => none
  | l => parseUnsignedDec l

/-- Claim C7: price coercion is total (an `Option`-valued function that never
errors), never yields a negative value, maps `"15.5"` to the value 15.5, and
maps the empty/absent, negative (`"-3"`) and non-numeric (`"abc"`) inputs to
absent. -/
theorem price_coercion :
    (∀ s d, coercePrice s = some d → 0 ≤ d.toRat) ∧
    (coercePrice "15.5").map Dec.toRat = some ((31 : Rat) / 2) ∧
    coercePrice "" = none ∧
    coercePrice "-3" = none ∧
    coercePrice "abc" = none := by
  refine ⟨?_, ?_, by decide, by decide, by decide⟩
  · intro s d _
    unfold Dec.toRat
    positivity
  · have h : coercePrice "15.5" = some ⟨155, 1⟩ := by decide
    rw [h]
    unfold Dec.toRat
    norm_num

/-- Witness for C7 at the concrete input `"15.5"`. -/
theorem price_coercion_witness : 0 ≤ Dec.toRat ⟨155, 1⟩ :=
  price_coercion.1 "15.5" ⟨155, 1⟩ (by decide)

/-- Claim C8: category normalization preserves taxonomy members exactly, sends
every input with no case-insensitive taxonomy match to `其他`, sends every
input with a case-insensitive match to a taxonomy member agreeing with it case
insensitively, and always lands in the taxonomy. -/
theorem category_mapping :
    (∀ c, c ∈ taxonomy → normalizeCategory c = c) ∧
    (∀ s, (∀ c, c ∈ taxonomy → lowerStr c ≠ lowerStr s) → normalizeCategory s = "其他") ∧
    (∀ s c, c ∈ taxonomy → lowerStr c = lowerStr s →
      normalizeCategory s ∈ taxonomy ∧ lowerStr (normalizeCategory s) = lowerStr s) ∧
    (∀ s, normalizeCategory s ∈ taxonomy) := by
  refine ⟨by decide, ?_, ?_, ?_⟩
  · intro s h
    have hn : taxonomy.find? (fun c => lowerStr c == lowerStr s) = none := by
      rw [List.find?_eq_none]
      intro c hc
      simpa using h c hc
    unfold normalizeCategory
    rw [hn]
    rfl
  · intro s c hc hm
    cases hf : taxonomy.find? (fun c => lowerStr c == lowerStr s) with
    | none =>
      exact absurd (beq_iff_eq.mpr hm) (List.find?_eq_none.mp hf c hc)
    | some d =>
      have hd : d ∈ taxonomy := List.mem_of_find?_eq_some hf
      have hp := List.find?_some hf
      constructor
      · unfold normalizeCategory
        rw [hf]
        exact hd
      · unfold normalizeCategory
        rw [hf]
        exact beq_iff_eq.mp hp
  · intro s
    cases hf : taxonomy.find? (fun c => lowerStr c == lowerStr s) with
    | none =>
      unfold normalizeCategory
      rw [hf]
      decide
    | some d =>
      unfold normalizeCategory
      rw [hf]
      exact List.mem_of_find?_eq_some hf

/-- Witness for C8 at the concrete non-matching input `"随便"`. -/
theorem category_mapping_witness : normalizeCategory "随便" = "其他" :=
  category_mapping.2.1 "随便" (by decide)

/-- Holds when the second list begins with the first. -/
def startsWithChars : List Char → List Char → Bool
  | [], _ => true
  | _ :: _, [] => false
  | a :: as, b :: bs => a == b && startsWithChars as bs

/-- Holds when the first list occurs contiguously inside the second. -/
def hasSub (n : List Char) : List Char → Bool
  | [] => n.isEmpty
  | c :: rest => startsWithChars n (c :: rest) || hasSub n rest

/-- Case-insensitive substring test on strings. -/
def containsCI (hay needle : String) : Bool :=
  hasSub (lowerStr needle).data (lowerStr hay).data

theorem startsWithChars_iff (n h : List Char) :
    startsWithChars n h = true ↔ ∃ t, h = n ++ t := by
  induction n generalizing h with
  | nil =>
    simp [startsWithChars]
  | cons a as ih =>
    cases h with
    | nil =>
      simp [startsWithChars]
    | cons b bs =>
      simp only [startsWithChars, Bool.and_eq_true, beq_iff_eq, ih, List.cons_append,
        List.cons.injEq]
      constructor
      · rintro ⟨rfl, t, rfl⟩
        exact ⟨t, rfl, rfl⟩
      · rintro ⟨t, rfl, rfl⟩
        exact ⟨rfl, t, rfl⟩

theorem hasSub_iff (n h : List Char) :
    hasSub n h = true ↔ ∃ l r, h = l ++ n ++ r := by
  induction h with
  | nil =>
    simp only [hasSub, List.isEmpty_iff]
    constructor
    · rintro rfl
      exact ⟨[], [], rfl⟩
    · rintro ⟨l, r, hr⟩
      rcases List.append_eq_nil.mp (List.append_eq_nil.mp hr.symm).1 with ⟨-, h2⟩
      exact h2
  | cons c rest ih =>
    simp only [hasSub, Bool.or_eq_true, startsWithChars_iff, ih]
    constructor
    · rintro (⟨t, ht⟩ | ⟨l, r, hr⟩)
      · exact ⟨[], t, by simp [ht]⟩
      · exact ⟨c :: l, r, by simp [hr]⟩
    · rintro ⟨l, r, hr⟩
      cases l with
      | nil =>
        exact Or.inl ⟨r, by simpa using hr⟩
      | cons x xs =>
        refine Or.inr ⟨xs, r, ?_⟩
        simp only [List.cons_append, List.cons.injEq] at hr
        exact hr.2

/-- A persisted book listing of the Catalog Repository (spec §3), with the
fields surfaced by the frontend pages; `owner` is the resolved principal of
the creating request. -/
structure BookListing where
  id : Nat
  title : String
  author : Option String
  publisher : Option String
  edition : Option String
  category : String
  condition : Option String
  price : Option Dec
  description : Option String
  contact : Option String
  owner : String
deriving DecidableEq, Repr

/-- The author text used for keyword matching (absent author matches as the
empty string, hence never contains a non-empty keyword). -/
def authorText (b : BookListing) : String :=
  b.author.getD ""

/-- A search query: optional keyword, optional exact category. -/
structure Query where
  keyword : Option String
  category : Option String
deriving DecidableEq, Repr

/-- Modelled from the spec: Catalog Repository `search` filter (backend
`app/api/books.py` is absent from the snapshot).  Case-insensitive substring
match on title and author when a keyword is given, exact match on category
when given, both conjoined. -/
def matchesQuery (q : Query) (b : BookListing) : Bool :=
  (match q.keyword with
   | none => true
   | some k => containsCI b.title k || containsCI (authorText b) k) &&
  (match q.category with
   | none => true
   | some c => b.category == c)

/-- Modelled from the spec: Catalog Repository `search`. -/
def search (catalog : List BookListing) (q : Query) : List BookListing :=
  catalog.filter (matchesQuery q)

/-- Claim C9: a listing is in the search result exactly when it is in the
catalog, its lower-cased title or author contains the lower-cased keyword as a
contiguous substring whenever a keyword is given, and its category equals the
given category whenever one is given. -/
theorem search_correct (catalog : List BookListing) (q : Query) (b : BookListing) :
    b ∈ search catalog q ↔
      b ∈ catalog ∧
      (∀ kw, q.keyword = some kw →
        ((∃ l r, (lowerStr b.title).data = l ++ (lowerStr kw).data ++ r) ∨
         (∃ l r, (lowerStr (authorText b)).data = l ++ (lowerStr kw).data ++ r))) ∧
      (∀ cat, q.category = some cat → b.category = cat) := by
  unfold search
  rw [List.mem_filter]
  refine and_congr_right fun _ => ?_
  unfold matchesQuery
  rw [Bool.and_eq_true]
  refine and_congr ?_ ?_
  · cases hk : q.keyword with
    | none => simp
    | some k =>
      simp only [Bool.or_eq_true, containsCI, hasSub_iff, Option.some.injEq, forall_eq']
  · cases hc : q.category with
    | none => simp
    | some c =>
      simp only [beq_iff_eq, Option.some.injEq, forall_eq']

/-- A concrete listing used to witness the search characterization. -/
def bookMath : BookListing :=
  { id := 1, title := "高等数学", author := some "同济大学", publisher := none,
    edition := some "第七版", category := "高等数学", condition := none,
    price := none, description := none, contact := none, owner := "stu_20230001" }

/-- Witness for C9: the keyword `数学` finds `bookMath` in a one-element
catalog. -/
theorem search_correct_witness :
    bookMath ∈ search [bookMath] { keyword := some "数学", category := none } :=
  (search_correct [bookMath] { keyword := some "数学", category := none } bookMath).mpr
    ⟨by decide,
     fun kw hkw => by
       injection hkw with h
       subst h
       exact Or.inl ⟨['高', '等'], [], by decide⟩,
     fun cat hc => nomatch hc⟩

/-- Trim a string (whitespace at both ends). -/
def strTrim (s : String) : String :=
  ⟨trimChars s.data⟩

/-- An absent-for-empty optional string field (spec §4.4 rule 4: optional
fields default to absent rather than empty string). -/
def emptyToNone (s : String) : Option String :=
  if strTrim s = "" then none else some (strTrim s)

/-- Raw candidate/form fields, all strings with `""` standing for an absent
value, matching the edit form of `frontend/pages/library/library.vue`. -/
structure Draft where
  title : String
  author : String
  edition : String
  publisher : String
  price : String
  condition : String
  category : String
  description : String
  contact : String
deriving DecidableEq, Repr

/-- The normalized shape of a candidate, ready for persistence. -/
structure ListingDraft where
  title : String
  author : Option String
  publisher : Option String
  edition : Option String
  category : String
  condition : Option String
  price : Option Dec
  description : Option String
  contact : Option String
deriving DecidableEq, Repr

/-- Modelled from the spec: Candidate Normalizer §4.4 (backend `app/services`
is absent from the snapshot).  Trim all string fields, drop the candidate when
the title trims to empty, map the category into the taxonomy, coerce the
price, default optional fields to absent. -/
def normalizeDraft (d : Draft) : Option ListingDraft :=
  if strTrim d.title = "" then none
  else some
    { title := strTrim d.title
      author := emptyToNone d.author
      publisher := emptyToNone d.publisher
      edition := emptyToNone d.edition
      category := normalizeCategory (strTrim d.category)
      condition := emptyToNone d.condition
      price := coercePrice d.price
      description := emptyToNone d.description
      contact := emptyToNone d.contact }

/-- Materialize a normalized draft as a listing owned by `owner`. -/
def toListing (nd : ListingDraft) (owner : String) (id : Nat) : BookListing :=
  { id := id, title := nd.title, author := nd.author, publisher := nd.publisher,
    edition := nd.edition, category := nd.category, condition := nd.condition,
    price := nd.price, description := nd.description, contact := nd.contact,
    owner := owner }

/-- Apply an edit to an existing listing: every content field is replaced, the
identifier and the owner are carried over unchanged. -/
def applyDraft (nd : ListingDraft) (b : BookListing) : BookListing :=
  toListing nd b.owner b.id

/-- Error taxonomy of the repository operations (spec §7). -/
inductive RepoError where
  | notFound
  | forbidden
  | validation
  | persistence
deriving DecidableEq, Repr

/-- Look a listing up by identifier. -/
def findBook (s : List BookListing) (id : Nat) : Option BookListing :=
  s.find? (fun b => b.id == id)

/-- Modelled from the spec: Catalog Repository `create` (backend
`app/api/books.py` is absent from the snapshot).  Rejects a draft whose title
normalizes away (`ValidationError`); otherwise appends the normalized listing
owned by the creating request's resolved identity.  The pair is
(operation result, state after the operation). -/
def createListing (s : List BookListing) (d : Draft) (owner : String) (nid : Nat) :
    Except RepoError BookListing × List BookListing :=
  match normalizeDraft d with
  | none => (.error .validation, s)
  | some nd => (.ok (toListing nd owner nid), s ++ [toListing nd owner nid])

/-- Modelled from the spec: Catalog Repository `update` (backend
`app/api/books.py` is absent from the snapshot).  Fails `NotFound` on an
unknown id, `Forbidden` when the requester is not the owner, `ValidationError`
on an empty title, and otherwise rewrites the listing's content fields while
keeping id and owner; on any failure the state is unchanged. -/
def updateBook (s : List BookListing) (id : Nat) (d : Draft) (requester : String) :
    Except RepoError BookListing × List BookListing :=
  match findBook s id with
  | none => (.error .notFound, s)
  | some b =>
    if b.owner == requester then
      match normalizeDraft d with
      | none => (.error .validation, s)
      | some nd =>
        (.ok (applyDraft nd b), s.map (fun x => if x.id == id then applyDraft nd b else x))
    else (.error .forbidden, s)

/-- Modelled from the spec: Catalog Repository `delete` (backend
`app/api/books.py` is absent from the snapshot). -/
def deleteBook (s : List BookListing) (id : Nat) (requester : String) :
    Except RepoError Unit × List BookListing :=
  match findBook s id with
  | none => (.error .notFound, s)
  | some b =>
    if b.owner == requester then (.ok (), s.filter (fun x => !(x.id == id)))
    else (.error .forbidden, s)

/-- Claim C1: on a listing present in the catalog, `update` and `delete`
issued by a principal other than the owner fail with the authorization error
and leave the catalog state (hence the listing) unchanged; issued by the
owner, `delete` succeeds and `update` succeeds whenever the submitted fields
validate. -/
theorem ownership_enforcement (s : List BookListing) (id : Nat) (d : Draft)
    (r : String) (b : BookListing) (hfind : findBook s id = some b) :
    (r ≠ b.owner →
      (updateBook s id d r).1 = Except.error RepoError.forbidden ∧
      (updateBook s id d r).2 = s ∧
      (deleteBook s id r).1 = Except.error RepoError.forbidden ∧
      (deleteBook s id r).2 = s) ∧
    (r = b.owner →
      (deleteBook s id r).1 = Except.ok () ∧
      ∀ nd, normalizeDraft d = some nd → (updateBook s id d r).1 = Except.ok (applyDraft nd b)) := by
  constructor
  · intro hne
    have hbo : (b.owner == r) = false := beq_eq_false_iff_ne.mpr fun h => hne h.symm
    refine ⟨?_, ?_, ?_, ?_⟩ <;> simp [updateBook, deleteBook, hfind, hbo]
  · intro heq
    have hbo : (b.owner == r) = true := beq_iff_eq.mpr heq.symm
    constructor
    · simp [deleteBook, hfind, hbo]
    · intro nd hnd
      simp [updateBook, hfind, hbo, hnd]

/-- A concrete raw draft for witnesses. -/
def draftMath : Draft :=
  { title := "高等数学", author := "同济大学", edition := "第七版", publisher := "",
    price := "", condition := "", category := "高等数学", description := "",
    contact := "" }

/-- Witness for C1: a non-owner principal is refused and the catalog is
unchanged. -/
theorem ownership_enforcement_witness :
    (updateBook [bookMath] 1 draftMath "stu_999").1 = Except.error RepoError.forbidden ∧
    (updateBook [bookMath] 1 draftMath "stu_999").2 = [bookMath] ∧
    (deleteBook [bookMath] 1 "stu_999").1 = Except.error RepoError.forbidden ∧
    (deleteBook [bookMath] 1 "stu_999").2 = [bookMath] :=
  (ownership_enforcement [bookMath] 1 draftMath "stu_999" bookMath (by decide)).1 (by decide)

theorem normalizeCategory_mem (s : String) : normalizeCategory s ∈ taxonomy := by
  cases hf : taxonomy.find? (fun c => lowerStr c == lowerStr s) with
  | none =>
    unfold normalizeCategory
    rw [hf]
    decide
  | some d =>
    unfold normalizeCategory
    rw [hf]
    exact List.mem_of_find?_eq_some hf

theorem normalizeDraft_good (d : Draft) (nd : ListingDraft)
    (h : normalizeDraft d = some nd) : nd.title ≠ "" ∧ nd.category ∈ taxonomy := by
  unfold normalizeDraft at h
  split at h
  · exact absurd h (by simp)
  · next hne =>
    injection h with h2
    subst h2
    exact ⟨hne, normalizeCategory_mem _⟩

/-- Membership in the post-state of `updateBook`: every listing there either
was already in the catalog or is the edited form of the listing found at the
target id. -/
theorem mem_updateBook_state (s : List BookListing) (id : Nat) (d : Draft) (r : String)
    (b' : BookListing) (h : b' ∈ (updateBook s id d r).2) :
    b' ∈ s ∨ ∃ b nd, findBook s id = some b ∧ normalizeDraft d = some nd ∧
      b' = applyDraft nd b := by
  unfold updateBook at h
  split at h
  · exact Or.inl h
  · next b heq =>
    split at h
    · split at h
      · exact Or.inl h
      · next nd hnd =>
        rcases List.mem_map.mp h with ⟨x, hx, hfx⟩
        split at hfx
        · exact Or.inr ⟨b, nd, heq, hnd, hfx.symm⟩
        · exact Or.inl (hfx ▸ hx)
    · exact Or.inl h

/-- A catalog operation as issued by a request: manual or pipeline create,
owner edit, owner delete. -/
inductive CatalogOp where
  | create (d : Draft) (requester : String)
  | edit (id : Nat) (d : Draft) (requester : String)
  | remove (id : Nat) (requester : String)

/-- One step of the catalog: apply an operation to (state, next fresh id). -/
def applyOp (s : List BookListing) (nid : Nat) : CatalogOp → List BookListing × Nat
  | .create d r => ((createListing s d r nid).2, nid + 1)
  | .edit id d r => ((updateBook s id d r).2, nid)
  | .remove id r => ((deleteBook s id r).2, nid)

/-- Run a sequence of catalog operations from the empty catalog. -/
def runOps (ops : List CatalogOp) : List BookListing × Nat :=
  ops.foldl (fun p op => applyOp p.1 p.2 op) ([], 0)

theorem applyOp_good (s : List BookListing) (nid : Nat) (op : CatalogOp)
    (hs : ∀ b ∈ s, b.title ≠ "" ∧ b.category ∈ taxonomy) :
    ∀ b ∈ (applyOp s nid op).1, b.title ≠ "" ∧ b.category ∈ taxonomy := by
  intro b hb
  cases op with
  | create d r =>
    dsimp only [applyOp] at hb
    unfold createListing at hb
    cases hn : normalizeDraft d with
    | none =>
      simp only [hn] at hb
      exact hs b hb
    | some nd =>
      simp only [hn] at hb
      rcases List.mem_append.mp hb with h | h
      · exact hs b h
      · rcases List.mem_singleton.mp h with rfl
        exact normalizeDraft_good d nd hn
  | edit id d r =>
    dsimp only [applyOp] at hb
    rcases mem_updateBook_state s id d r b hb with h | ⟨b0, nd, heq, hnd, rfl⟩
    · exact hs b h
    · exact normalizeDraft_good d nd hnd
  | remove id r =>
    dsimp only [applyOp] at hb
    unfold deleteBook at hb
    split at hb
    · exact hs b hb
    · split at hb
      · exact hs b (List.mem_of_mem_filter hb)
      · exact hs b hb

theorem foldl_applyOp_good (ops : List CatalogOp) (s : List BookListing) (nid : Nat)
    (hs : ∀ b ∈ s, b.title ≠ "" ∧ b.category ∈ taxonomy) :
    ∀ b ∈ (ops.foldl (fun p op => applyOp p.1 p.2 op) (s, nid)).1,
      b.title ≠ "" ∧ b.category ∈ taxonomy := by
  induction ops generalizing s nid with
  | nil => exact hs
  | cons op ops ih =>
    intro b hb
    rw [List.foldl_cons] at hb
    exact ih (applyOp s nid op).1 (applyOp s nid op).2 (applyOp_good s nid op hs) b hb

/-- Claim C2: after any sequence of create/edit/delete operations starting
from the empty catalog, every persisted listing has a non-empty title and a
category in the taxonomy; `create` returns a listing owned by the creating
request's resolved identity; and every listing in the state after an edit
carries the owner of a listing that was already in the pre-state with the same
id, so edits never alter the owner. -/
theorem listing_invariants :
    (∀ ops, ∀ b ∈ (runOps ops).1, b.title ≠ "" ∧ b.category ∈ taxonomy) ∧
    (∀ s d owner nid b', (createListing s d owner nid).1 = Except.ok b' →
      b'.owner = owner) ∧
    (∀ s id d r b', b' ∈ (updateBook s id d r).2 →
      ∃ b, b ∈ s ∧ b'.id = b.id ∧ b'.owner = b.owner) := by
  refine ⟨?_, ?_, ?_⟩
  · intro ops
    exact foldl_applyOp_good ops [] 0 (by simp)
  · intro s d owner nid b' h
    unfold createListing at h
    cases hn : normalizeDraft d with
    | none =>
      rw [hn] at h
      exact absurd h (by simp)
    | some nd =>
      rw [hn] at h
      injection h with h2
      subst h2
      rfl
  · intro s id d r b' h
    rcases mem_updateBook_state s id d r b' h with hmem | ⟨b, nd, heq, hnd, rfl⟩
    · exact ⟨b', hmem, rfl, rfl⟩
    · refine ⟨b, ?_, rfl, rfl⟩
      unfold findBook at heq
      exact List.mem_of_find?_eq_some heq

/-- The listing created from `draftMath` by `stu_20230001` at fresh id 0. -/
def bookMathZero : BookListing :=
  { bookMath with id := 0 }

/-- Witness for C2: running a single create yields a listing with a non-empty
title and a taxonomy category. -/
theorem listing_invariants_witness :
    bookMathZero.title ≠ "" ∧ bookMathZero.category ∈ taxonomy :=
  listing_invariants.1 [CatalogOp.create draftMath "stu_20230001"] bookMathZero (by decide)

/-- The listings a batch of normalized candidates materializes to, with
consecutive fresh identifiers starting at `nid`. -/
def batchToListings (owner : String) : Nat → List ListingDraft → List BookListing
  | _, [] => []
  | nid, nd :: nds => toListing nd owner nid :: batchToListings owner (nid + 1) nds

/-- Modelled from the spec: the persistence step of one analyze request with
save requested (backend orchestrator is absent from the snapshot).
Persistence is all-or-nothing per request: `failAt = some k` models a
storage-layer failure while the k-th write of the batch is pending, in which
case nothing is committed and the pre-state stays visible; otherwise the whole
batch is committed at once.  The pair is (result, state visible to other
requests afterwards). -/
def persistBatch (s : List BookListing) (batch : List ListingDraft) (owner : String)
    (nid : Nat) (failAt : Option Nat) : Except RepoError Unit × List BookListing :=
  match failAt with
  | some k =>
    if k < batch.length then (.error .persistence, s)
    else (.ok (), s ++ batchToListings owner nid batch)
  | none => (.ok (), s ++ batchToListings owner nid batch)

theorem mem_batchToListings (owner : String) (nid : Nat) (batch : List ListingDraft)
    (nd : ListingDraft) (h : nd ∈ batch) :
    ∃ i, toListing nd owner (nid + i) ∈ batchToListings owner nid batch := by
  induction batch generalizing nid with
  | nil => cases h
  | cons a as ih =>
    rcases List.mem_cons.mp h with rfl | h2
    · exact ⟨0, by simp [batchToListings]⟩
    · rcases ih (nid + 1) h2 with ⟨i, hi⟩
      refine ⟨i + 1, ?_⟩
      rw [show nid + (i + 1) = nid + 1 + i by omega]
      exact List.mem_cons_of_mem _ hi

/-- Claim C4: persistence of an analyze batch is all-or-nothing.  Every run
either succeeds or fails with the persistence error; on failure the visible
state is exactly the pre-state (no partial writes); on success the batch is
appended as a whole and every validated candidate of the batch is present in
the visible state. -/
theorem persistence_atomic (s : List BookListing) (batch : List ListingDraft)
    (owner : String) (nid : Nat) (failAt : Option Nat) :
    ((persistBatch s batch owner nid failAt).1 = Except.ok () ∨
     (persistBatch s batch owner nid failAt).1 = Except.error RepoError.persistence) ∧
    ((persistBatch s batch owner nid failAt).1 = Except.error RepoError.persistence →
      (persistBatch s batch owner nid failAt).2 = s) ∧
    ((persistBatch s batch owner nid failAt).1 = Except.ok () →
      (persistBatch s batch owner nid failAt).2 = s ++ batchToListings owner nid batch ∧
      ∀ nd ∈ batch, ∃ i,
        toListing nd owner (nid + i) ∈ (persistBatch s batch owner nid failAt).2) := by
  have hmem : ∀ nd ∈ batch, ∃ i,
      toListing nd owner (nid + i) ∈ s ++ batchToListings owner nid batch := by
    intro nd hnd
    rcases mem_batchToListings owner nid batch nd hnd with ⟨i, hi⟩
    exact ⟨i, List.mem_append_right s hi⟩
  cases failAt with
  | none =>
    refine ⟨Or.inl rfl, ?_, ?_⟩
    · intro h
      exact absurd h (by simp [persistBatch])
    · intro _
      exact ⟨rfl, hmem⟩
  | some k =>
    by_cases hk : k < batch.length
    · refine ⟨Or.inr ?_, ?_, ?_⟩
      · simp [persistBatch, hk]
      · intro _
        simp [persistBatch, hk]
      · intro h
        rw [show (persistBatch s batch owner nid (some k)).1 =
          Except.error RepoError.persistence by simp [persistBatch, hk]] at h
        cases h
    · refine ⟨Or.inl (by simp [persistBatch, hk]), ?_, ?_⟩
      · intro h
        rw [show (persistBatch s batch owner nid (some k)).1 = Except.ok () by
          simp [persistBatch, hk]] at h
        cases h
      · intro _
        refine ⟨by simp [persistBatch, hk], ?_⟩
        intro nd hnd
        rcases hmem nd hnd with ⟨i, hi⟩
        refine ⟨i, ?_⟩
        simpa [persistBatch, hk] using hi

/-- The normalized form of `draftMath`, used in witnesses. -/
def draftMathNorm : ListingDraft :=
  { title := "高等数学", author := some "同济大学", publisher := none,
    edition := some "第七版", category := "高等数学", condition := none,
    price := none, description := none, contact := none }

/-- Witness for C4: a storage failure during the first write of a one-element
batch leaves the catalog exactly as it was. -/
theorem persistence_atomic_witness :
    (persistBatch [bookMath] [draftMathNorm] "stu_20230001" 2 (some 0)).2 = [bookMath] :=
  (persistence_atomic [bookMath] [draftMathNorm] "stu_20230001" 2 (some 0)).2.1 rfl

/-- The outcome of the Extraction Adapter: a structured candidate list, or the
extraction error still carrying the original raw recognized text. -/
inductive ExtractOutcome where
  | ok (books : List Draft)
  | failed (rawText : String)
deriving DecidableEq, Repr

/-- Modelled from the spec: the Extraction Adapter's retry-then-fail control
flow (§4.3; backend `app/services/llm_service.py` is absent from the
snapshot).  `upstream n` is the upstream's reply to the n-th call made for
this one fixed input (`none` = malformed response); the adapter makes a first
call, on a malformed reply retries exactly once with the same input, and on a
second malformed reply returns the extraction error carrying the raw
recognized text.  The second component counts the upstream calls made. -/
def extractWithRetry (upstream : Nat → Option (List Draft)) (raw : String) :
    ExtractOutcome × Nat :=
  match upstream 0 with
  | some bs => (.ok bs, 1)
  | none =>
    match upstream 1 with
    | some bs => (.ok bs, 2)
    | none => (.failed raw, 2)

/-- Claim C3: on a well-formed first reply the adapter answers after one call;
on a malformed first reply it retries exactly once (two calls total) with the
same input, succeeding if the retry does; and when both replies are malformed
it returns the extraction error that still carries the original raw
recognized text, after exactly the one retry. -/
theorem extraction_retry (upstream : Nat → Option (List Draft)) (raw : String) :
    (∀ bs, upstream 0 = some bs →
      extractWithRetry upstream raw = (ExtractOutcome.ok bs, 1)) ∧
    (∀ bs, upstream 0 = none → upstream 1 = some bs →
      extractWithRetry upstream raw = (ExtractOutcome.ok bs, 2)) ∧
    (upstream 0 = none → upstream 1 = none →
      extractWithRetry upstream raw = (ExtractOutcome.failed raw, 2)) := by
  refine ⟨?_, ?_, ?_⟩
  · intro bs h0
    unfold extractWithRetry
    rw [h0]
  · intro bs h0 h1
    unfold extractWithRetry
    rw [h0, h1]
  · intro h0 h1
    unfold extractWithRetry
    rw [h0, h1]

/-- Witness for C3: an upstream that is malformed on every call produces the
extraction error with the raw text preserved, after exactly two calls. -/
theorem extraction_retry_witness :
    extractWithRetry (fun _ => none) "高等数学 第七版 同济大学出版社" =
      (ExtractOutcome.failed "高等数学 第七版 同济大学出版社", 2) :=
  (extraction_retry (fun _ => none) "高等数学 第七版 同济大学出版社").2.2 rfl rfl

/-- The client-held storage consulted by the identity resolver: the
`user_student_id` and `user_uuid` keys of `uni.getStorageSync`, with `""`
standing for an absent key (the code only tests truthiness). -/
structure ClientStorage where
  studentId : String
  uuid : String
deriving DecidableEq, Repr

/-- Embedded from `frontend/utils/request.js` (`getUserId`, src/unnamed/part_002
lines 96-112): prefer the stored student number, returning `"stu_" ++ id`;
otherwise reuse the stored ephemeral token; otherwise generate
`"temp_" ++ Date.now() ++ "_" ++ random-suffix`, store it, and return it.
`Date.now()` and the random suffix are the `now`/`rand` parameters.  The pair
is (resolved principal, storage afterwards). -/
def getUserId (st : ClientStorage) (now : Nat) (rand : String) : String × ClientStorage :=
  if st.studentId ≠ "" then ("stu_" ++ st.studentId, st)
  else if st.uuid ≠ "" then (st.uuid, st)
  else
    ("temp_" ++ toString now ++ "_" ++ rand,
     { st with uuid := "temp_" ++ toString now ++ "_" ++ rand })

/-- Counterexample for C5: with the stored student number `20230001` the
resolver returns `"stu_20230001"`, not `"member:20230001"`. -/
theorem member_principal_counterexample :
    (getUserId ⟨"20230001", ""⟩ 0 "abc").1 = "stu_20230001" ∧
    (getUserId ⟨"20230001", ""⟩ 0 "abc").1 ≠ "member:20230001" := by
  decide

/-- Claim C5 (amended): whenever a durable declared identifier (the stored
student number) is present, the resolver returns the principal string
`"stu_"` followed by that identifier. -/
theorem durable_principal (st : ClientStorage) (now : Nat) (rand : String)
    (h : st.studentId ≠ "") :
    (getUserId st now rand).1 = "stu_" ++ st.studentId := by
  unfold getUserId
  rw [if_pos h]

/-- Witness for the amended C5 at the stored student number `20230001`. -/
theorem durable_principal_witness :
    (getUserId ⟨"20230001", ""⟩ 5 "xyz").1 = "stu_" ++ "20230001" :=
  durable_principal ⟨"20230001", ""⟩ 5 "xyz" (by decide)

theorem temp_token_ne_empty (a b : String) : ("temp_" ++ a ++ "_" ++ b) ≠ "" := by
  intro h
  have h2 := congrArg String.data h
  simp [String.data_append] at h2

/-- Claim C6: the resolver is deterministic.  With a stored durable identifier
the principal does not depend on the clock or the randomness; with a stored
ephemeral token and no durable identifier the stored token is returned and the
storage unchanged; and with neither, the generated token is written to storage
and every later invocation returns that same stored token, leaving storage
unchanged. -/
theorem identity_resolution_deterministic :
    (∀ st n₁ r₁ n₂ r₂, st.studentId ≠ "" →
      (getUserId st n₁ r₁).1 = (getUserId st n₂ r₂).1) ∧
    (∀ st n r, st.studentId = "" → st.uuid ≠ "" →
      (getUserId st n r).1 = st.uuid ∧ (getUserId st n r).2 = st) ∧
    (∀ st n r, st.studentId = "" → st.uuid = "" →
      (getUserId st n r).2.uuid = (getUserId st n r).1 ∧
      (getUserId st n r).2.studentId = "" ∧
      ∀ n₂ r₂, getUserId (getUserId st n r).2 n₂ r₂ =
        ((getUserId st n r).1, (getUserId st n r).2)) := by
  refine ⟨?_, ?_, ?_⟩
  · intro st n₁ r₁ n₂ r₂ h
    unfold getUserId
    rw [if_pos h, if_pos h]
  · intro st n r h1 h2
    unfold getUserId
    rw [if_neg (by simp [h1]), if_pos h2]
    exact ⟨rfl, rfl⟩
  · intro st n r h1 h2
    have hst : getUserId st n r =
        ("temp_" ++ toString n ++ "_" ++ r,
         { st with uuid := "temp_" ++ toString n ++ "_" ++ r }) := by
      unfold getUserId
      rw [if_neg (by simp [h1]), if_neg (by simp [h2])]
    rw [hst]
    refine ⟨rfl, h1, ?_⟩
    intro n₂ r₂
    unfold getUserId
    rw [if_neg (by simp [h1]), if_pos (temp_token_ne_empty (toString n) r)]

/-- Witness for C6: with an empty student number and the stored token
`"user_123"`, the resolver returns that token and leaves storage unchanged. -/
theorem identity_resolution_deterministic_witness :
    (getUserId ⟨"", "user_123"⟩ 7 "xy").1 = "user_123" ∧
    (getUserId ⟨"", "user_123"⟩ 7 "xy").2 = ⟨"", "user_123"⟩ :=
  identity_resolution_deterministic.2.1 ⟨"", "user_123"⟩ 7 "xy" rfl (by decide)

/-- An HTTP request as issued by the mini-program client. -/
structure HttpRequest where
  url : String
  verb : String
deriving DecidableEq, Repr

/-- Embedded from `frontend/pages/library/library.vue` (`analyzeImage`, index
page, lines 824-864): the flow returns early without a chosen image or a
filled student id, uploads the image, throws on upload failure before any
analyze call, and on upload success issues
`POST /api/analyze/{file_id}?save=true`.  `uploadResult` is the file id of a
successful upload, `none` a failed one; the result is the analyze request
issued, if any. -/
def analyzeImage (imagePath : String) (studentId : String)
    (uploadResult : Option String) : Option HttpRequest :=
  if imagePath = "" then none
  else if studentId = "" then none
  else
    match uploadResult with
    | none => none
    | some fid => some { url := "/api/analyze/" ++ fid ++ "?save=true", verb := "POST" }

/-- Claim C10: every analyze request the client's `analyzeImage` flow issues
targets `/api/analyze/{file_id}?save=true` by POST — persistence is always
requested, and no client code path issues a non-persisting analyze call. -/
theorem analyze_always_saves (imagePath studentId : String)
    (uploadResult : Option String) (req : HttpRequest)
    (h : analyzeImage imagePath studentId uploadResult = some req) :
    ∃ fid, uploadResult = some fid ∧
      req.url = "/api/analyze/" ++ fid ++ "?save=true" ∧ req.verb = "POST" := by
  unfold analyzeImage at h
  split at h
  · cases h
  · split at h
    · cases h
    · cases uploadResult with
      | none => cases h
      | some fid =>
        injection h with h2
        subst h2
        exact ⟨fid, rfl, rfl, rfl⟩

/-- Witness for C10 at a concrete successful upload. -/
theorem analyze_always_saves_witness :
    ∃ fid, (some "f123" : Option String) = some fid ∧
      ({ url := "/api/analyze/f123?save=true", verb := "POST" } : HttpRequest).url =
        "/api/analyze/" ++ fid ++ "?save=true" ∧
      ({ url := "/api/analyze/f123?save=true", verb := "POST" } : HttpRequest).verb =
        "POST" :=
  analyze_always_saves "tmp/img.jpg" "20230001" (some "f123")
    { url := "/api/analyze/f123?save=true", verb := "POST" } (by decide)
